import Mathlib

/-!
Shallow embedding of the pet-shop storefront core (catalog store, order
processor, change notifier, settings store) from `src/server/routes.ts`,
the in-memory storage module and the shared zod schema.

Conventions of the embedding:
* JavaScript `Map<string, T>` becomes an association list keyed by the
  entity's `id` field; `Map.get` is `List.find?`, `Map.set` replaces the
  entry in place when the key exists and appends otherwise, `Map.delete`
  filters the key out and reports whether it was present.
* JS numbers that the schema constrains to integers (`priceInINR`,
  `stock`, `quantity`) are `Int` so that an erroneous negative stock is
  representable, and `Date` values are `Nat` ticks supplied by the caller
  (`now`); `randomUUID()` results are likewise caller-supplied fresh ids.
* In the storage module, `getProduct` returns the stored object by
  reference and `updateProductStock` mutates that same object, so the
  product array fetched at the start of the order route aliases the live
  store: a field read such as `product.stock` inside the decrement loop
  observes the current store value.  The embedding therefore re-reads the
  store by id at each decrement step.
* Async handlers run each request to completion here; the cross-request
  race window the spec flags in §9 is outside a single-request embedding.
-/

namespace PetShop

/-- The `Product` record from `shared/schema.ts`. -/
structure Product where
  id : String
  name : String
  categoryId : String
  type : String
  species : Option String
  images : List String
  description : String
  priceInINR : Int
  stock : Int
  available : Bool
  createdAt : Nat
deriving DecidableEq

/-- The `Category` record from `shared/schema.ts`. -/
structure Category where
  id : String
  name : String
  slug : String
  description : String
  createdAt : Nat
deriving DecidableEq

/-- A line item of `insertOrderSchema` (`{productId, quantity}`). -/
structure InsertOrderItem where
  productId : String
  quantity : Int
deriving DecidableEq

/-- Customer block of an order. -/
structure Customer where
  name : String
  phone : String
  altPhone : Option String
  address : String
deriving DecidableEq

/-- Parsed body of `POST /api/orders` (output of `insertOrderSchema.parse`). -/
structure InsertOrder where
  products : List InsertOrderItem
  customer : Customer
deriving DecidableEq

/-- A denormalized order line (`{productId, name, priceInINR, quantity}`). -/
structure OrderLine where
  productId : String
  name : String
  priceInINR : Int
  quantity : Int
deriving DecidableEq

/-- The `Order` record from `shared/schema.ts`; `status` is one of
`"pending" | "completed" | "cancelled"` as in the TS union type. -/
structure Order where
  id : String
  products : List OrderLine
  customer : Customer
  totalAmountINR : Int
  status : String
  createdAt : Nat
deriving DecidableEq

/-- The `SiteSettings` record. -/
structure SiteSettings where
  id : String
  description : String
  youtubeUrl : String
  updatedAt : Nat
deriving DecidableEq

/-- Output of `updateSiteSettingsSchema.parse`: `description` is required
and `youtubeUrl` is defaulted to `""` by zod, so both fields are present. -/
structure UpdateSiteSettings where
  description : String
  youtubeUrl : String
deriving DecidableEq

/-- Output of `insertCategorySchema.parse` (`description` defaulted to ""). -/
structure InsertCategory where
  name : String
  description : String
deriving DecidableEq

/-- The `Partial<InsertCategory>`: absent fields are `none`. -/
structure CategoryPatch where
  name : Option String
  description : Option String
deriving DecidableEq

/-- The `Partial<InsertProduct>`: absent fields are `none`. -/
structure ProductPatch where
  name : Option String
  categoryId : Option String
  type : Option String
  species : Option String
  description : Option String
  priceInINR : Option Int
  stock : Option Int
  available : Option Bool
deriving DecidableEq

/-- The `MemStorage` state: the four JS `Map`s (users/admins omitted, no
claim touches them) plus the site-settings singleton. -/
structure MemStorage where
  categories : List Category
  products : List Product
  orders : List Order
  siteSettings : SiteSettings
deriving DecidableEq

/-! ### Slug derivation

`name.toLowerCase().replace(/\s+/g, '-').replace(/[^a-z0-9-]/g, '')`
from `MemStorage.createCategory` / `MemStorage.updateCategory`, modelled
over the ASCII fragment the schema exercises. -/

/-- ASCII model of `String.prototype.toLowerCase`: map `A`–`Z` to
`a`–`z`, leave every other character unchanged. -/
def jsToLower (c : Char) : Char :=
  if 65 ≤ c.toNat ∧ c.toNat ≤ 90 then Char.ofNat (c.toNat + 32) else c

/-- The regex class `\s` (ASCII members: space, tab, LF, VT, FF, CR). -/
def isJsSpace (c : Char) : Bool :=
  c.toNat = 32 || c.toNat = 9 || c.toNat = 10 || c.toNat = 11 ||
  c.toNat = 12 || c.toNat = 13

/-- Characters kept by the second regex: `[a-z0-9-]`. -/
def isSlugChar (c : Char) : Bool :=
  (97 ≤ c.toNat && c.toNat ≤ 122) || (48 ≤ c.toNat && c.toNat ≤ 57) ||
  c.toNat = 45

/-- The `replace(/\s+/g, '-')`: each maximal run of whitespace becomes one
hyphen.  The boolean records whether the previous character was part of a
whitespace run already replaced. -/
def collapseSpaces : Bool → List Char → List Char
  | _, [] => []
  | prevSpace, c :: cs =>
    if isJsSpace c then
      if prevSpace then collapseSpaces true cs
      else '-' :: collapseSpaces true cs
    else c :: collapseSpaces false cs

/-- Slug derivation used by both `createCategory` and `updateCategory`. -/
def slugify (s : String) : String :=
  ⟨(collapseSpaces false (s.data.map jsToLower)).filter isSlugChar⟩

/-! ### `Map` operations on the association lists -/

/-- The `Map.set`: replace the entry in place when the key exists (JS `Map.set`
keeps the insertion position on overwrite), append otherwise. -/
def mapSet {α : Type} (key : α → String) (xs : List α) (id : String) (x : α) : List α :=
  if xs.any (fun q => key q == id) then xs.map (fun q => if key q == id then x else q)
  else xs ++ [x]

/-- The `Map.set` for the products map. -/
def mapSetProduct (ps : List Product) (id : String) (p : Product) : List Product :=
  mapSet Product.id ps id p

/-- The `Map.set` for the orders map. -/
def mapSetOrder (os : List Order) (id : String) (o : Order) : List Order :=
  mapSet Order.id os id o

/-- The `Map.set` for the categories map. -/
def mapSetCategory (cs : List Category) (id : String) (c : Category) : List Category :=
  mapSet Category.id cs id c

/-! ### Storage methods (`MemStorage` in the storage module) -/

/-- The `getProduct(id)`: `this.products.get(id)`. -/
def getProduct (st : MemStorage) (id : String) : Option Product :=
  st.products.find? (fun p => p.id == id)

/-- The `getOrder(id)`: `this.orders.get(id)`. -/
def getOrder (st : MemStorage) (id : String) : Option Order :=
  st.orders.find? (fun o => o.id == id)

/-- The `getCategory(id)`: `this.categories.get(id)`. -/
def getCategory (st : MemStorage) (id : String) : Option Category :=
  st.categories.find? (fun c => c.id == id)

/-- The `createCategory(insertCategory)`: derive the slug from the name and
store a new record under a fresh id. -/
def createCategory (st : MemStorage) (ic : InsertCategory) (freshId : String)
    (now : Nat) : Category × MemStorage :=
  let category : Category :=
    { id := freshId, name := ic.name, slug := slugify ic.name,
      description := ic.description, createdAt := now }
  (category, { st with categories := mapSetCategory st.categories freshId category })

/-- The `updateCategory(id, updateData)`: spread the patch over the record;
the slug is re-derived from `updateData.name` when that is truthy
(present and non-empty, mirroring `updateData.name ? … : category.slug`). -/
def updateCategory (st : MemStorage) (id : String) (u : CategoryPatch) :
    Option Category × MemStorage :=
  match st.categories.find? (fun c => c.id == id) with
  | none => (none, st)
  | some category =>
    let updatedCategory : Category :=
      { id := category.id
        name := u.name.getD category.name
        description := u.description.getD category.description
        slug :=
          match u.name with
          | some n => if n = "" then category.slug else slugify n
          | none => category.slug
        createdAt := category.createdAt }
    (some updatedCategory,
     { st with categories := mapSetCategory st.categories id updatedCategory })

/-- The `deleteCategory(id)`: `this.categories.delete(id)` — returns whether
the key was present and removes that entry only. -/
def deleteCategory (st : MemStorage) (id : String) : Bool × MemStorage :=
  (st.categories.any (fun c => c.id == id),
   { st with categories := st.categories.filter (fun c => !(c.id == id)) })

/-- The `updateProduct(id, updateData)`: spread the `Partial` patch over the
stored record and put the new object back. -/
def updateProduct (st : MemStorage) (id : String) (u : ProductPatch) :
    Option Product × MemStorage :=
  match st.products.find? (fun p => p.id == id) with
  | none => (none, st)
  | some product =>
    let updatedProduct : Product :=
      { id := product.id
        name := u.name.getD product.name
        categoryId := u.categoryId.getD product.categoryId
        type := u.type.getD product.type
        species := match u.species with | some s => some s | none => product.species
        images := product.images
        description := u.description.getD product.description
        priceInINR := u.priceInINR.getD product.priceInINR
        stock := u.stock.getD product.stock
        available := u.available.getD product.available
        createdAt := product.createdAt }
    (some updatedProduct, { st with products := mapSetProduct st.products id updatedProduct })

/-- The `updateProductStock(id, newStock)`: set `product.stock = newStock` on
the stored record. -/
def updateProductStock (st : MemStorage) (id : String) (newStock : Int) :
    Option Product × MemStorage :=
  match st.products.find? (fun p => p.id == id) with
  | none => (none, st)
  | some product =>
    let product2 : Product := { product with stock := newStock }
    (some product2, { st with products := mapSetProduct st.products id product2 })

/-- The `updateOrderStatus(id, status)`: set the status field unconditionally
on the stored order (the storage layer has no transition guard). -/
def updateOrderStatus (st : MemStorage) (id : String) (status : String) :
    Option Order × MemStorage :=
  match st.orders.find? (fun o => o.id == id) with
  | none => (none, st)
  | some order =>
    let order2 : Order := { order with status := status }
    (some order2, { st with orders := mapSetOrder st.orders id order2 })

/-- The `getSiteSettings()`: return the singleton. -/
def getSiteSettings (st : MemStorage) : SiteSettings :=
  st.siteSettings

/-- The `updateSiteSettings(settings)`: `{...this.siteSettings, ...settings,
updatedAt: new Date()}` — both patch fields are present after zod parsing,
so they override, `id` is kept and `updatedAt` is stamped. -/
def updateSiteSettings (st : MemStorage) (patch : UpdateSiteSettings) (now : Nat) :
    SiteSettings × MemStorage :=
  let s : SiteSettings :=
    { id := st.siteSettings.id
      description := patch.description
      youtubeUrl := patch.youtubeUrl
      updatedAt := now }
  (s, { st with siteSettings := s })

/-! ### `createOrder` -/

/-- The `insertOrder.products.map(...)` body of `createOrder`: resolve
each line item in the passed product array and copy name/price into a
denormalized line; a missing product throws. -/
def mapLines (products : List Product) : List InsertOrderItem → Except String (List OrderLine)
  | [] => Except.ok []
  | item :: rest =>
    match products.find? (fun p => p.id == item.productId) with
    | none => Except.error ("Product " ++ item.productId ++ " not found")
    | some p =>
      match mapLines products rest with
      | Except.error e => Except.error e
      | Except.ok ls =>
        Except.ok ({ productId := item.productId, name := p.name,
                     priceInINR := p.priceInINR, quantity := item.quantity } :: ls)

/-- The `MemStorage.createOrder(insertOrder, products)`: build the line-item
snapshot, total it with `reduce`, and store the order as `pending`. -/
def createOrder (st : MemStorage) (r : InsertOrder) (products : List Product)
    (freshId : String) (now : Nat) : Except String (Order × MemStorage) :=
  match mapLines products r.products with
  | Except.error e => Except.error e
  | Except.ok orderProducts =>
    let totalAmountINR :=
      orderProducts.foldl (fun total p => total + p.priceInINR * p.quantity) 0
    let order : Order :=
      { id := freshId, products := orderProducts, customer := r.customer,
        totalAmountINR := totalAmountINR, status := "pending", createdAt := now }
    Except.ok (order, { st with orders := mapSetOrder st.orders freshId order })

/-! ### The order route (`POST /api/orders`) -/

/-- Failure classes of the order route. `notFound` is the 400
"One or more products not found" reply, `insufficientStock` carries the
interpolated product name, `other` is the catch-all `error.message`. -/
inductive OrderError where
  | notFound : OrderError
  | insufficientStock : String → OrderError
  | other : String → OrderError
deriving DecidableEq

/-- Result of one run of the order route: the HTTP reply, the storage
state afterwards, and the event names handed to `broadcastUpdate`. -/
structure OrderRouteResult where
  response : Except OrderError Order
  state : MemStorage
  events : List String

/-- The stock-decrement loop of the route.  In the source each fetched
`product` object aliases the live store, so `product.stock` inside the
loop reads the current value; the embedding re-reads the store by id. -/
def decrementLoop (st : MemStorage) (items : List InsertOrderItem) : MemStorage :=
  items.foldl
    (fun s item =>
      match s.products.find? (fun p => p.id == item.productId) with
      | none => s
      | some p => (updateProductStock s p.id (p.stock - item.quantity)).2)
    st

/-- The `products` array fetched by
`Promise.all(productIds.map(id => storage.getProduct(id)))`. -/
def fetchedProducts (st : MemStorage) (r : InsertOrder) : List (Option Product) :=
  r.products.map (fun item => getProduct st item.productId)

/-- The `products.filter(Boolean)`: the fetched array with the (absent after
the not-found check) `undefined` entries dropped. -/
def fetchedList (st : MemStorage) (r : InsertOrder) : List Product :=
  (fetchedProducts st r).filterMap id

/-- The loop condition of the stock-availability check:
`!product || product.stock < orderProduct.quantity`, with `product` the
entry found for the item in the fetched array. -/
def stockShort (st : MemStorage) (r : InsertOrder) (item : InsertOrderItem) : Bool :=
  match (fetchedList st r).find? (fun p => p.id == item.productId) with
  | none => true
  | some p => p.stock < item.quantity

/-- The interpolation `${product?.name}` of the insufficient-stock
message (`"undefined"` when the lookup misses, as in JS). -/
def shortName (st : MemStorage) (r : InsertOrder) (item : InsertOrderItem) : String :=
  (((fetchedList st r).find? (fun p => p.id == item.productId)).map
      (fun p => p.name)).getD "undefined"

/-- Handler of `POST /api/orders` after schema validation: fetch all
products, reject if any is missing, reject on the first line item whose
quantity exceeds stock, otherwise create the order, decrement each stock
and broadcast `order:created`. -/
def placeOrder (st : MemStorage) (r : InsertOrder) (freshId : String)
    (now : Nat) : OrderRouteResult :=
  if (fetchedProducts st r).any (fun p => p.isNone) then
    { response := Except.error OrderError.notFound, state := st, events := [] }
  else
    match r.products.find? (stockShort st r) with
    | some item =>
      { response := Except.error (OrderError.insufficientStock (shortName st r item)),
        state := st, events := [] }
    | none =>
      match createOrder st r (fetchedList st r) freshId now with
      | Except.error e =>
        { response := Except.error (OrderError.other e), state := st, events := [] }
      | Except.ok (order, st2) =>
        { response := Except.ok order,
          state := decrementLoop st2 r.products,
          events := ["order:created"] }

/-! ### The order-status route (`PUT /api/admin/orders/:id/status`) -/

/-- Result of one run of the status route. -/
structure StatusRouteResult where
  response : Except String Order
  state : MemStorage
  events : List String

/-- Handler of `PUT /api/admin/orders/:id/status`: reject a status
outside the three-value set, 404 a missing order, otherwise store the
requested status and broadcast `order:updated`. -/
def updateOrderStatusRoute (st : MemStorage) (id status : String) : StatusRouteResult :=
  if !(["pending", "completed", "cancelled"].contains status) then
    { response := Except.error "Invalid status", state := st, events := [] }
  else
    match updateOrderStatus st id status with
    | (none, st2) => { response := Except.error "Order not found", state := st2, events := [] }
    | (some order, st2) =>
      { response := Except.ok order, state := st2, events := ["order:updated"] }

/-! ### The change notifier (`broadcastUpdate` and the `wss` handlers) -/

/-- A WebSocket client: connection identity, whether `readyState` is
`OPEN`, and the messages delivered so far. -/
structure WsClient where
  id : Nat
  isOpen : Bool
  inbox : List String
deriving DecidableEq

/-- The `JSON.stringify({ event, data })` for an already-serialized payload. -/
def serializeMessage (event payload : String) : String :=
  "\x7b\"event\":\"" ++ event ++ "\",\"data\":" ++ payload ++ "\x7d"

/-- The `broadcastUpdate(event, data)`: send the one serialized message to
every registered client whose channel is open; a closed client is
skipped.  The function is total: a broadcast never fails. -/
def broadcastUpdate (clients : List WsClient) (event payload : String) : List WsClient :=
  let message := serializeMessage event payload
  clients.map (fun c => if c.isOpen then { c with inbox := c.inbox ++ [message] } else c)

/-- The `wss.on("connection")` handler: `wsClients.add(ws)` (a JS `Set`
ignores an already-present member). -/
def handleConnection (clients : List WsClient) (ws : WsClient) : List WsClient :=
  if clients.any (fun c => c.id == ws.id) then clients else clients ++ [ws]

/-- The `ws.on("close")` / `ws.on("error")` handlers:
`wsClients.delete(ws)`. -/
def removeClient (clients : List WsClient) (ws : WsClient) : List WsClient :=
  clients.filter (fun c => !(c.id == ws.id))

/-- Total quantity a request asks for a given product id. -/
def qtySum (items : List InsertOrderItem) (pid : String) : Int :=
  ((items.filter (fun it => it.productId == pid)).map (fun it => it.quantity)).sum

/-! ### Example data used by the concrete theorems -/

/-- A stored order that has already been completed, for exercising the
status route. -/
def completedOrder : Order :=
  { id := "o1", products := [],
    customer := { name := "A", phone := "1234567890", altPhone := none, address := "addr" },
    totalAmountINR := 0, status := "completed", createdAt := 0 }

/-- A store holding `completedOrder` only. -/
def statusStore : MemStorage :=
  { categories := [], products := [], orders := [completedOrder],
    siteSettings := { id := "default", description := "d", youtubeUrl := "", updatedAt := 0 } }

/-- A parrot with a single unit in stock. -/
def parrot : Product :=
  { id := "p1", name := "Parrot", categoryId := "c1", type := "pet", species := none,
    images := [], description := "d", priceInINR := 900, stock := 1, available := true,
    createdAt := 0 }

/-- A store holding only `parrot`. -/
def parrotStore : MemStorage :=
  { categories := [], products := [parrot], orders := [],
    siteSettings := { id := "default", description := "d", youtubeUrl := "", updatedAt := 0 } }

/-- A request for two parrots when one is in stock. -/
def twoParrots : InsertOrder :=
  { products := [{ productId := "p1", quantity := 2 }],
    customer := { name := "A", phone := "1234567890", altPhone := none, address := "addr" } }

/-- A request for one parrot. -/
def oneParrot : InsertOrder :=
  { products := [{ productId := "p1", quantity := 1 }],
    customer := { name := "A", phone := "1234567890", altPhone := none, address := "addr" } }

/-- The order the route persists for `oneParrot` against `parrotStore`. -/
def parrotSnap : Order :=
  { id := "o9",
    products := [{ productId := "p1", name := "Parrot", priceInINR := 900, quantity := 1 }],
    customer := { name := "A", phone := "1234567890", altPhone := none, address := "addr" },
    totalAmountINR := 900, status := "pending", createdAt := 3 }

/-- A product that is hidden from the storefront (`available = false`)
but still in stock. -/
def hiddenToy : Product :=
  { id := "p1", name := "Toy", categoryId := "c1", type := "accessory", species := none,
    images := [], description := "d", priceInINR := 100, stock := 5, available := false,
    createdAt := 0 }

/-- A store holding only `hiddenToy`. -/
def hiddenStore : MemStorage :=
  { categories := [], products := [hiddenToy], orders := [],
    siteSettings := { id := "default", description := "d", youtubeUrl := "", updatedAt := 0 } }

/-- A request for three units of the unavailable product. -/
def hiddenOrder : InsertOrder :=
  { products := [{ productId := "p1", quantity := 3 }],
    customer := { name := "A", phone := "1234567890", altPhone := none, address := "addr" } }

/-- A hamster with one unit in stock. -/
def hamster : Product :=
  { id := "p1", name := "Hamster", categoryId := "c1", type := "pet", species := none,
    images := [], description := "d", priceInINR := 100, stock := 1, available := true,
    createdAt := 0 }

/-- A store holding only `hamster`. -/
def dupStore : MemStorage :=
  { categories := [], products := [hamster], orders := [],
    siteSettings := { id := "default", description := "d", youtubeUrl := "", updatedAt := 0 } }

/-- A schema-valid request whose two line items repeat the same product
id, each within stock on its own. -/
def dupRequest : InsertOrder :=
  { products := [{ productId := "p1", quantity := 1 }, { productId := "p1", quantity := 1 }],
    customer := { name := "A", phone := "1234567890", altPhone := none, address := "addr" } }

/-- The product `P` of the spec scenario, with two units in stock. -/
def prodP : Product :=
  { id := "p1", name := "P", categoryId := "c1", type := "pet", species := none,
    images := [], description := "d", priceInINR := 500, stock := 2, available := true,
    createdAt := 0 }

/-- A store holding only `prodP`. -/
def scenarioStore : MemStorage :=
  { categories := [], products := [prodP], orders := [],
    siteSettings := { id := "default", description := "d", youtubeUrl := "", updatedAt := 0 } }

/-- A request for two units of `P`. -/
def orderTwo : InsertOrder :=
  { products := [{ productId := "p1", quantity := 2 }],
    customer := { name := "A", phone := "1234567890", altPhone := none, address := "addr" } }

/-- A request for one unit of `P`. -/
def orderOne : InsertOrder :=
  { products := [{ productId := "p1", quantity := 1 }],
    customer := { name := "A", phone := "1234567890", altPhone := none, address := "addr" } }

/-! ## Supporting lemmas -/

/-- Looking up the written key in the replace branch of `mapSet`. -/
lemma find?_replaceAll_self {α : Type} (key : α → String) (id : String) (x : α)
    (hx : key x = id) :
    ∀ xs : List α, (xs.map (fun q => if key q == id then x else q)).find?
        (fun q => key q == id) =
      ((xs.find? (fun q => key q == id)).map (fun _ => x)) := by
  intro xs
  induction xs with
  | nil => rfl
  | cons a as ih =>
    simp only [List.map_cons, List.find?]
    by_cases hka : (key a == id) = true
    · rw [if_pos hka]
      simp only [List.find?, hka]
      have hxx : (key x == id) = true := by simpa using hx
      simp [hxx]
    · rw [if_neg hka]
      have hka' : (key a == id) = false := by
        cases hb : (key a == id)
        · rfl
        · exact absurd hb hka
      simp only [List.find?, hka']
      exact ih

/-- Looking up a different key in the replace branch of `mapSet`. -/
lemma find?_replaceAll_other {α : Type} (key : α → String) (id pid : String) (x : α)
    (hx : key x = id) (hne : pid ≠ id) :
    ∀ xs : List α, (xs.map (fun q => if key q == id then x else q)).find?
        (fun q => key q == pid) =
      xs.find? (fun q => key q == pid) := by
  have hip : ¬(id = pid) := fun h => hne h.symm
  have hxp : (key x == pid) = false := by simp [hx, hip]
  intro xs
  induction xs with
  | nil => rfl
  | cons a as ih =>
    simp only [List.map_cons]
    by_cases hka : (key a == id) = true
    · rw [if_pos hka]
      have ha : key a = id := by simpa using hka
      have hap : (key a == pid) = false := by simp [ha, hip]
      simp only [List.find?, hxp, hap]
      exact ih
    · rw [if_neg hka]
      by_cases hpa : (key a == pid) = true
      · simp only [List.find?, hpa]
      · have hpa' : (key a == pid) = false := by
          cases hb : (key a == pid)
          · rfl
          · exact absurd hb hpa
        simp only [List.find?, hpa']
        exact ih

/-- After `mapSet key xs id x` with `key x = id`, looking up `id` yields
`x` (whether the key was present or was appended). -/
lemma find?_mapSet_self {α : Type} (key : α → String) (xs : List α) (id : String) (x : α)
    (hx : key x = id) :
    (mapSet key xs id x).find? (fun q => key q == id) = some x := by
  unfold mapSet
  by_cases h : xs.any (fun q => key q == id) = true
  · rw [if_pos h, find?_replaceAll_self key id x hx xs]
    obtain ⟨a, ha, hpa⟩ := List.any_eq_true.mp h
    cases hfind : xs.find? (fun q => key q == id) with
    | none => rw [List.find?_eq_none] at hfind; exact absurd hpa (hfind a ha)
    | some b => rfl
  · rw [if_neg h]
    rw [List.find?_append]
    have hnone : xs.find? (fun q => key q == id) = none := by
      rw [List.find?_eq_none]
      intro a ha hpa
      exact h (List.any_eq_true.mpr ⟨a, ha, hpa⟩)
    rw [hnone]
    simp [List.find?, hx]

/-- The `mapSet key xs id x` leaves every other key's lookup unchanged. -/
lemma find?_mapSet_other {α : Type} (key : α → String) (xs : List α) (id pid : String)
    (x : α) (hx : key x = id) (hne : pid ≠ id) :
    (mapSet key xs id x).find? (fun q => key q == pid) = xs.find? (fun q => key q == pid) := by
  unfold mapSet
  by_cases h : xs.any (fun q => key q == id) = true
  · rw [if_pos h]
    exact find?_replaceAll_other key id pid x hx hne xs
  · rw [if_neg h]
    rw [List.find?_append]
    have hip : ¬(id = pid) := fun hh => hne hh.symm
    have hxp : (key x == pid) = false := by simp [hx, hip]
    have : ([x].find? (fun q => key q == pid)) = none := by
      simp [List.find?, hxp]
    rw [this, Option.or_none]

/-- The `find?` only depends on the predicate's values on the list members. -/
lemma find?_congr_mem {α : Type} (p q : α → Bool) :
    ∀ l : List α, (∀ a ∈ l, p a = q a) → l.find? p = l.find? q := by
  intro l
  induction l with
  | nil => intro _; rfl
  | cons a as ih =>
    intro h
    have ha := h a (List.mem_cons_self a as)
    simp only [List.find?, ha]
    cases q a
    · exact ih (fun b hb => h b (List.mem_cons_of_mem a hb))
    · rfl

/-- The `getProduct` reads only the product map. -/
lemma getProduct_congr {st st' : MemStorage} (h : st'.products = st.products) :
    ∀ pid, getProduct st' pid = getProduct st pid := by
  intro pid
  unfold getProduct
  rw [h]

/-- When every fetched entry is present, looking a line item's id up in
the fetched array is the same as looking it up in the store: the first
array entry with that id is exactly the store's `find?` result. -/
lemma fetch_find_eq (st : MemStorage) :
    ∀ items : List InsertOrderItem,
      ((items.map (fun it => getProduct st it.productId)).any (fun p => p.isNone) = false) →
      ∀ item ∈ items,
        ((items.map (fun it => getProduct st it.productId)).filterMap id).find?
            (fun p => p.id == item.productId) = getProduct st item.productId := by
  intro items
  induction items with
  | nil => intro _ item hitem; exact absurd hitem (List.not_mem_nil item)
  | cons it0 rest ih =>
    intro hany item hitem
    simp only [List.map_cons, List.any_cons, Bool.or_eq_false_iff] at hany
    obtain ⟨h0, hrest⟩ := hany
    cases hg : getProduct st it0.productId with
    | none => rw [hg] at h0; simp at h0
    | some p0 =>
      have hp0 : p0.id = it0.productId := by
        have := List.find?_some hg
        simpa using this
      rw [List.map_cons, hg]
      simp only [List.filterMap_cons]
      show (p0 :: (rest.map (fun it => getProduct st it.productId)).filterMap id).find?
          (fun p => p.id == item.productId) = getProduct st item.productId
      by_cases hb : (p0.id == item.productId) = true
      · simp only [List.find?, hb]
        have : item.productId = it0.productId := by
          have h1 : p0.id = item.productId := by simpa using hb
          rw [← h1, hp0]
        rw [this, hg]
      · have hb' : (p0.id == item.productId) = false := by
          cases hx : (p0.id == item.productId)
          · rfl
          · exact absurd hx hb
        simp only [List.find?, hb']
        rcases List.mem_cons.mp hitem with heq | hmem
        · subst heq
          exact absurd (by simpa using hp0) hb
        · exact ih hrest item hmem

/-- If every line item's product occurs in the array, the snapshot map
succeeds. -/
lemma mapLines_isOk (products : List Product) :
    ∀ items : List InsertOrderItem,
      (∀ item ∈ items, ((products.find? (fun p => p.id == item.productId)).isSome = true)) →
      ∃ ls, mapLines products items = Except.ok ls := by
  intro items
  induction items with
  | nil => intro _; exact ⟨[], rfl⟩
  | cons it0 rest ih =>
    intro h
    have h0 := h it0 (List.mem_cons_self it0 rest)
    cases hfind : products.find? (fun p => p.id == it0.productId) with
    | none => rw [hfind] at h0; exact absurd h0 (by simp)
    | some p =>
      obtain ⟨ls, hls⟩ := ih (fun item hm => h item (List.mem_cons_of_mem it0 hm))
      refine ⟨{ productId := it0.productId, name := p.name, priceInINR := p.priceInINR,
                quantity := it0.quantity } :: ls, ?_⟩
      unfold mapLines
      rw [hfind, hls]

/-- Shape of the snapshot lines produced by a successful `mapLines`:
each line copies name and price from the array entry found for some
requested item, and there is one line per item. -/
lemma mapLines_lines (products : List Product) :
    ∀ (items : List InsertOrderItem) (ls : List OrderLine),
      mapLines products items = Except.ok ls →
      ls.length = items.length ∧
      ∀ l ∈ ls, ∃ item ∈ items, ∃ p,
        products.find? (fun q => q.id == item.productId) = some p ∧
        l = { productId := item.productId, name := p.name, priceInINR := p.priceInINR,
              quantity := item.quantity } := by
  intro items
  induction items with
  | nil =>
    intro ls h
    cases h
    exact ⟨rfl, fun l hl => absurd hl (List.not_mem_nil l)⟩
  | cons it0 rest ih =>
    intro ls h
    unfold mapLines at h
    cases hfind : products.find? (fun p => p.id == it0.productId) with
    | none => rw [hfind] at h; cases h
    | some p =>
      rw [hfind] at h
      cases hrec : mapLines products rest with
      | error e => rw [hrec] at h; cases h
      | ok ls' =>
        rw [hrec] at h
        cases h
        obtain ⟨hlen, hmem⟩ := ih ls' hrec
        refine ⟨by simp [hlen], ?_⟩
        intro l hl
        rcases List.mem_cons.mp hl with heq | hm
        · exact ⟨it0, List.mem_cons_self it0 rest, p, hfind, heq⟩
        · obtain ⟨item, hitem, q, hq, hlq⟩ := hmem l hm
          exact ⟨item, List.mem_cons_of_mem it0 hitem, q, hq, hlq⟩

/-- The `reduce` computing the total equals the sum over the mapped
line-item products. -/
lemma foldl_lineTotal :
    ∀ (ls : List OrderLine) (a : Int),
      ls.foldl (fun total p => total + p.priceInINR * p.quantity) a =
        a + (ls.map (fun p => p.priceInINR * p.quantity)).sum := by
  intro ls
  induction ls with
  | nil => intro a; simp
  | cons l rest ih =>
    intro a
    simp only [List.foldl_cons, List.map_cons, List.sum_cons]
    rw [ih]
    ring

/-- Unfolding a successful `createOrder`: the stored order's shape and
the frame on the rest of the state. -/
lemma createOrder_ok {st : MemStorage} {r : InsertOrder} {products : List Product}
    {freshId : String} {now : Nat} {order : Order} {st2 : MemStorage}
    (h : createOrder st r products freshId now = Except.ok (order, st2)) :
    mapLines products r.products = Except.ok order.products ∧
    order.totalAmountINR = (order.products.map (fun p => p.priceInINR * p.quantity)).sum ∧
    order.id = freshId ∧ order.status = "pending" ∧ order.customer = r.customer ∧
    order.createdAt = now ∧
    st2.products = st.products ∧ st2.categories = st.categories ∧
    st2.siteSettings = st.siteSettings ∧
    st2.orders = mapSetOrder st.orders freshId order := by
  unfold createOrder at h
  cases hml : mapLines products r.products with
  | error e => rw [hml] at h; cases h
  | ok ls =>
    rw [hml] at h
    simp only [Except.ok.injEq, Prod.mk.injEq] at h
    obtain ⟨horder, hst2⟩ := h
    subst horder
    subst hst2
    refine ⟨rfl, ?_, rfl, rfl, rfl, rfl, rfl, rfl, rfl, rfl⟩
    show ls.foldl (fun total p => total + p.priceInINR * p.quantity) 0 =
      (ls.map (fun p => p.priceInINR * p.quantity)).sum
    rw [foldl_lineTotal ls 0, zero_add]

/-- Effect and frame of `updateProductStock` when the product exists. -/
lemma updateProductStock_effect {st : MemStorage} {pid : String} {p : Product}
    (hp : getProduct st pid = some p) (v : Int) :
    getProduct (updateProductStock st pid v).2 pid = some { p with stock := v } ∧
    (∀ pid', pid' ≠ pid → getProduct (updateProductStock st pid v).2 pid' = getProduct st pid') ∧
    (updateProductStock st pid v).2.orders = st.orders ∧
    (updateProductStock st pid v).2.categories = st.categories ∧
    (updateProductStock st pid v).2.siteSettings = st.siteSettings := by
  have hfind : st.products.find? (fun q => q.id == pid) = some p := hp
  have hpid : p.id = pid := by simpa using List.find?_some hfind
  have hst : (updateProductStock st pid v).2 =
      { st with products := mapSetProduct st.products pid { p with stock := v } } := by
    unfold updateProductStock
    rw [hfind]
  refine ⟨?_, ?_, by rw [hst], by rw [hst], by rw [hst]⟩
  · rw [hst]
    show (mapSetProduct st.products pid { p with stock := v }).find?
        (fun q => q.id == pid) = some { p with stock := v }
    exact find?_mapSet_self Product.id st.products pid { p with stock := v } hpid
  · intro pid' hne
    rw [hst]
    show (mapSetProduct st.products pid { p with stock := v }).find?
        (fun q => q.id == pid') = st.products.find? (fun q => q.id == pid')
    exact find?_mapSet_other Product.id st.products pid pid' { p with stock := v } hpid hne

/-- The `updateProductStock` never touches orders, categories or settings. -/
lemma updateProductStock_frame (st : MemStorage) (pid : String) (v : Int) :
    (updateProductStock st pid v).2.orders = st.orders ∧
    (updateProductStock st pid v).2.categories = st.categories ∧
    (updateProductStock st pid v).2.siteSettings = st.siteSettings := by
  unfold updateProductStock
  cases hfind : st.products.find? (fun q => q.id == pid) with
  | none => exact ⟨rfl, rfl, rfl⟩
  | some p => exact ⟨rfl, rfl, rfl⟩

/-- The decrement loop subtracts, product by product, the summed
requested quantity; reads inside the loop see the current stock because
the fetched objects alias the store. -/
lemma decrementLoop_stock :
    ∀ (items : List InsertOrderItem) (st : MemStorage) (pid : String) (p : Product),
      getProduct st pid = some p →
      getProduct (decrementLoop st items) pid =
        some { p with stock := p.stock - qtySum items pid } := by
  intro items
  induction items with
  | nil =>
    intro st pid p hp
    show getProduct st pid = some { p with stock := p.stock - qtySum [] pid }
    simpa [qtySum] using hp
  | cons item rest ih =>
    intro st pid p hp
    have hstep : decrementLoop st (item :: rest) =
        decrementLoop
          (match st.products.find? (fun q => q.id == item.productId) with
           | none => st
           | some q => (updateProductStock st q.id (q.stock - item.quantity)).2)
          rest := by
      rfl
    cases hfind : st.products.find? (fun q => q.id == item.productId) with
    | none =>
      have hne : ¬(item.productId = pid) := by
        intro heq
        rw [heq] at hfind
        unfold getProduct at hp
        rw [hfind] at hp
        cases hp
      rw [hstep, hfind]
      have hqs : qtySum (item :: rest) pid = qtySum rest pid := by
        simp only [qtySum, List.filter_cons]
        rw [if_neg (by simpa using hne)]
      rw [hqs]
      exact ih st pid p hp
    | some q =>
      have hqid : q.id = item.productId := by simpa using List.find?_some hfind
      have hgq : getProduct st q.id = some q := by
        unfold getProduct
        rw [hqid]
        exact hfind
      have heff := updateProductStock_effect hgq (q.stock - item.quantity)
      rw [hstep, hfind]
      by_cases heq : item.productId = pid
      · have hq_eq : q = p := by
          unfold getProduct at hp
          rw [← heq] at hp
          rw [hfind] at hp
          exact Option.some.inj hp
        subst hq_eq
        have hpid : q.id = pid := by rw [hqid, heq]
        have hnext := ih (updateProductStock st q.id (q.stock - item.quantity)).2 pid
          { q with stock := q.stock - item.quantity } (by rw [← hpid]; exact heff.1)
        rw [hnext]
        have hqs : qtySum (item :: rest) pid = item.quantity + qtySum rest pid := by
          simp only [qtySum, List.filter_cons]
          rw [if_pos (by simpa using heq), List.map_cons, List.sum_cons]
        rw [hqs]
        simp only [Option.some.injEq, Product.mk.injEq, and_true, true_and]
        omega
      · have hother := heff.2.1 pid (by rw [hqid]; exact fun h => heq h.symm)
        have hqs : qtySum (item :: rest) pid = qtySum rest pid := by
          simp only [qtySum, List.filter_cons]
          rw [if_neg (by simpa using heq)]
        rw [hqs]
        exact ih _ pid p (hother.trans hp)

/-- The decrement loop never touches orders, categories or settings. -/
lemma decrementLoop_frame :
    ∀ (items : List InsertOrderItem) (st : MemStorage),
      (decrementLoop st items).orders = st.orders ∧
      (decrementLoop st items).categories = st.categories ∧
      (decrementLoop st items).siteSettings = st.siteSettings := by
  intro items
  induction items with
  | nil => intro st; exact ⟨rfl, rfl, rfl⟩
  | cons item rest ih =>
    intro st
    have hstep : decrementLoop st (item :: rest) =
        decrementLoop
          (match st.products.find? (fun q => q.id == item.productId) with
           | none => st
           | some q => (updateProductStock st q.id (q.stock - item.quantity)).2)
          rest := by
      rfl
    rw [hstep]
    cases hfind : st.products.find? (fun q => q.id == item.productId) with
    | none => exact ih st
    | some q =>
      obtain ⟨h1, h2, h3⟩ := ih (updateProductStock st q.id (q.stock - item.quantity)).2
      obtain ⟨f1, f2, f3⟩ := updateProductStock_frame st q.id (q.stock - item.quantity)
      exact ⟨h1.trans f1, h2.trans f2, h3.trans f3⟩

/-- The `fetch_find_eq` restated through the route's `fetchedList`. -/
lemma fetchedList_find_eq (st : MemStorage) (r : InsertOrder)
    (h : (fetchedProducts st r).any (fun p => p.isNone) = false) :
    ∀ item ∈ r.products,
      (fetchedList st r).find? (fun p => p.id == item.productId) =
        getProduct st item.productId := by
  intro item hitem
  exact fetch_find_eq st r.products h item hitem

/-- If every requested product resolves, no fetched entry is `none`. -/
lemma fetched_none_check (st : MemStorage) (r : InsertOrder)
    (hall : ∀ item ∈ r.products, (getProduct st item.productId).isSome = true) :
    (fetchedProducts st r).any (fun p => p.isNone) = false := by
  cases hh : (fetchedProducts st r).any (fun p => p.isNone) with
  | false => rfl
  | true =>
    obtain ⟨x, hx, hxnone⟩ := List.any_eq_true.mp hh
    obtain ⟨it, hit, hxe⟩ := List.mem_map.mp hx
    have h2 := hall it hit
    rw [hxe] at h2
    cases x
    · simp at h2
    · simp at hxnone

/-- Reduction of the route on a failed fetch. -/
lemma placeOrder_notFound_route {st : MemStorage} {r : InsertOrder}
    {freshId : String} {now : Nat}
    (h : (fetchedProducts st r).any (fun p => p.isNone) = true) :
    placeOrder st r freshId now =
      { response := Except.error OrderError.notFound, state := st, events := [] } := by
  unfold placeOrder
  rw [h]
  rfl

/-- Characters kept by the final filter are not uppercase letters, so
`toLowerCase` fixes them. -/
lemma jsToLower_of_isSlugChar {c : Char} (h : isSlugChar c = true) : jsToLower c = c := by
  simp only [isSlugChar, Bool.or_eq_true, Bool.and_eq_true, decide_eq_true_eq] at h
  unfold jsToLower
  rw [if_neg]
  omega

/-- Characters kept by the final filter are not whitespace. -/
lemma isJsSpace_of_isSlugChar {c : Char} (h : isSlugChar c = true) : isJsSpace c = false := by
  simp only [isSlugChar, Bool.or_eq_true, Bool.and_eq_true, decide_eq_true_eq] at h
  simp only [isJsSpace, Bool.or_eq_false_iff, decide_eq_false_iff_not]
  omega

/-- On a whitespace-free list the whitespace-collapsing pass is the identity. -/
lemma collapseSpaces_of_no_space :
    ∀ l : List Char, (∀ c ∈ l, isJsSpace c = false) → collapseSpaces false l = l := by
  intro l
  induction l with
  | nil => intro _; rfl
  | cons c cs ih =>
    intro h
    have hc : isJsSpace c = false := h c (List.mem_cons_self c cs)
    simp only [collapseSpaces, hc, Bool.false_eq_true, if_false]
    rw [ih (fun d hd => h d (List.mem_cons_of_mem c hd))]

/-- A list all of whose members `f` fixes is fixed by `List.map f`. -/
lemma map_fix {α : Type} (f : α → α) :
    ∀ l : List α, (∀ a ∈ l, f a = a) → l.map f = l := by
  intro l
  induction l with
  | nil => intro _; rfl
  | cons a as ih =>
    intro h
    simp only [List.map_cons, h a (List.mem_cons_self a as)]
    rw [ih (fun b hb => h b (List.mem_cons_of_mem a hb))]

/-- Every character of a derived slug is in `[a-z0-9-]`. -/
lemma slugify_chars (s : String) : ∀ c ∈ (slugify s).data, isSlugChar c = true := by
  intro c hc
  have : c ∈ (collapseSpaces false (s.data.map jsToLower)).filter isSlugChar := hc
  exact (List.mem_filter.mp this).2

/-! ## C5 -/

/-- C5.  Category slug derivation is the deterministic function `slugify`
(lowercase, whitespace runs to a hyphen, strip everything outside
`[a-z0-9-]`); `createCategory` applies it to the name, `updateCategory`
applies the same function whenever a (schema-valid, hence non-empty) name
is supplied and keeps the old slug otherwise; it maps `"Exotic Birds!"`
to `"exotic-birds"`, and it is idempotent on every string. -/
theorem slugify_spec :
    slugify "Exotic Birds!" = "exotic-birds" ∧
    (∀ s : String, slugify (slugify s) = slugify s) ∧
    (∀ st ic freshId now, ((createCategory st ic freshId now).1).slug = slugify ic.name) ∧
    (∀ st id u n cat st2, u.name = some n → n ≠ "" →
      updateCategory st id u = (some cat, st2) → cat.slug = slugify n) ∧
    (∀ st id u cat st2, u.name = none →
      updateCategory st id u = (some cat, st2) →
      ∃ old, getCategory st id = some old ∧ cat.slug = old.slug) := by
  refine ⟨by decide, ?_, ?_, ?_, ?_⟩
  · intro s
    have hchars := slugify_chars s
    show String.mk ((collapseSpaces false ((slugify s).data.map jsToLower)).filter isSlugChar)
        = slugify s
    rw [map_fix jsToLower _ (fun c hc => jsToLower_of_isSlugChar (hchars c hc))]
    rw [collapseSpaces_of_no_space _ (fun c hc => isJsSpace_of_isSlugChar (hchars c hc))]
    rw [List.filter_eq_self.mpr hchars]
  · intro st ic freshId now
    rfl
  · intro st id u n cat st2 hn hne h
    unfold updateCategory at h
    cases hfind : st.categories.find? (fun c => c.id == id) with
    | none => rw [hfind] at h; exact absurd (congrArg Prod.fst h).symm (by simp)
    | some category =>
      rw [hfind] at h
      have hcat := congrArg Prod.fst h
      simp only at hcat
      cases hcat
      simp only [hn, if_neg hne]
  · intro st id u cat st2 hn h
    unfold updateCategory at h
    cases hfind : st.categories.find? (fun c => c.id == id) with
    | none => rw [hfind] at h; exact absurd (congrArg Prod.fst h).symm (by simp)
    | some category =>
      rw [hfind] at h
      have hcat := congrArg Prod.fst h
      simp only at hcat
      cases hcat
      exact ⟨category, hfind, by simp only [hn]⟩

/-- Witness for C5: applying `slugify_spec` at concrete inputs. -/
theorem slugify_spec_witness :
    ((createCategory
        { categories := [], products := [], orders := [],
          siteSettings := { id := "default", description := "", youtubeUrl := "", updatedAt := 0 } }
        { name := "Exotic Birds!", description := "" } "c1" 0).1).slug = "exotic-birds" := by
  rw [slugify_spec.2.2.1]
  exact slugify_spec.1

/-! ## C8 -/

/-- C8.  `update(patch)` on the settings store merges the patch fields
into the singleton (after zod parsing both fields are present, so both
override), stamps `updatedAt` with the supplied clock value, keeps the
id, replaces the singleton, and returns the new value; an immediately
following `get()` returns exactly that value. -/
theorem updateSiteSettings_then_get :
    ∀ st patch now,
      getSiteSettings (updateSiteSettings st patch now).2 = (updateSiteSettings st patch now).1 ∧
      (updateSiteSettings st patch now).1.description = patch.description ∧
      (updateSiteSettings st patch now).1.youtubeUrl = patch.youtubeUrl ∧
      (updateSiteSettings st patch now).1.updatedAt = now ∧
      (updateSiteSettings st patch now).1.id = st.siteSettings.id :=
  fun _ _ _ => ⟨rfl, rfl, rfl, rfl, rfl⟩

/-! ## C9 -/

/-- C9.  Deleting a category removes exactly the entries with the given
id from the category map and reports whether one existed; the product
map, order map and settings singleton are untouched, so products whose
`categoryId` references the deleted category remain stored unchanged. -/
theorem deleteCategory_frame :
    ∀ st id,
      ((deleteCategory st id).1 = true ↔ ∃ c ∈ st.categories, c.id = id) ∧
      (deleteCategory st id).2.products = st.products ∧
      (deleteCategory st id).2.orders = st.orders ∧
      (deleteCategory st id).2.siteSettings = st.siteSettings ∧
      (∀ c : Category, c ∈ (deleteCategory st id).2.categories ↔ c ∈ st.categories ∧ c.id ≠ id) := by
  intro st id
  refine ⟨?_, rfl, rfl, rfl, ?_⟩
  · simp [deleteCategory, List.any_eq_true]
  · intro c
    simp [deleteCategory, List.mem_filter]

/-! ## C7 -/

/-- C7.  A broadcast delivers the one serialized message to every
registered subscriber whose channel is open at send time and leaves a
non-open subscriber untouched (the broadcaster is a total function, so a
disconnected channel causes no error); the connection handler adds a
subscriber to the registry and the close/error handlers remove it. -/
theorem broadcastUpdate_delivery :
    (∀ (clients : List WsClient) (event payload : String) (i : Nat) (c : WsClient),
      clients[i]? = some c →
      (c.isOpen = true →
        (broadcastUpdate clients event payload)[i]? =
          some { c with inbox := c.inbox ++ [serializeMessage event payload] }) ∧
      (c.isOpen = false → (broadcastUpdate clients event payload)[i]? = some c)) ∧
    (∀ (clients : List WsClient) (event payload : String),
      (broadcastUpdate clients event payload).length = clients.length) ∧
    (∀ (clients : List WsClient) (ws : WsClient),
      (∃ c ∈ handleConnection clients ws, c.id = ws.id) ∧
      (∀ c ∈ clients, c ∈ handleConnection clients ws)) ∧
    (∀ (clients : List WsClient) (ws : WsClient) (c : WsClient),
      c ∈ removeClient clients ws ↔ c ∈ clients ∧ c.id ≠ ws.id) := by
  refine ⟨?_, ?_, ?_, ?_⟩
  · intro clients event payload i c hc
    constructor
    · intro hopen
      unfold broadcastUpdate
      rw [List.getElem?_map, hc]
      simp [hopen]
    · intro hclosed
      unfold broadcastUpdate
      rw [List.getElem?_map, hc]
      simp [hclosed]
  · intro clients event payload
    simp [broadcastUpdate]
  · intro clients ws
    constructor
    · unfold handleConnection
      by_cases h : clients.any (fun c => c.id == ws.id)
      · rw [if_pos h]
        obtain ⟨c, hc, hid⟩ := List.any_eq_true.mp h
        exact ⟨c, hc, by simpa using hid⟩
      · rw [if_neg h]
        exact ⟨ws, List.mem_append_right _ (List.mem_singleton_self ws), rfl⟩
    · intro c hc
      unfold handleConnection
      by_cases h : clients.any (fun c => c.id == ws.id)
      · rw [if_pos h]; exact hc
      · rw [if_neg h]; exact List.mem_append_left _ hc
  · intro clients ws c
    simp [removeClient, List.mem_filter]

/-- Witness for C7: one open and one closed subscriber; the open one
receives the serialized `category:created` message, the closed one
receives nothing. -/
theorem broadcastUpdate_delivery_witness :
    (broadcastUpdate
        [{ id := 0, isOpen := true, inbox := [] }, { id := 1, isOpen := false, inbox := [] }]
        "category:created" "\x7b\x7d")[0]? =
      some { id := 0, isOpen := true,
             inbox := [serializeMessage "category:created" "\x7b\x7d"] } ∧
    (broadcastUpdate
        [{ id := 0, isOpen := true, inbox := [] }, { id := 1, isOpen := false, inbox := [] }]
        "category:created" "\x7b\x7d")[1]? =
      some { id := 1, isOpen := false, inbox := [] } := by
  constructor
  · exact (broadcastUpdate_delivery.1
      [{ id := 0, isOpen := true, inbox := [] }, { id := 1, isOpen := false, inbox := [] }]
      "category:created" "\x7b\x7d" 0 { id := 0, isOpen := true, inbox := [] } rfl).1 rfl
  · exact (broadcastUpdate_delivery.1
      [{ id := 0, isOpen := true, inbox := [] }, { id := 1, isOpen := false, inbox := [] }]
      "category:created" "\x7b\x7d" 1 { id := 1, isOpen := false, inbox := [] } rfl).2 rfl

/-! ## C2 -/

/-- Counterexample to C2: the status route has no transition guard, so
the request `completed → pending` is accepted and the stored status
changes, where the claim says it must be rejected with the status left
unchanged. -/
theorem updateOrderStatus_no_transition_guard :
    completedOrder.status = "completed" ∧
    (updateOrderStatusRoute statusStore "o1" "pending").response.isOk = true ∧
    (getOrder (updateOrderStatusRoute statusStore "o1" "pending").state "o1").map Order.status =
      some "pending" := by
  exact ⟨rfl, rfl, rfl⟩

/-- C2 as amended.  The status route accepts any requested status in
`{pending, completed, cancelled}` for any stored order regardless of its
current status and overwrites the status with the requested value; it
rejects only a request whose status lies outside that set or whose order
id is absent, and on rejection the state is unchanged. -/
theorem updateOrderStatusRoute_behavior :
    ∀ st id status,
      ((updateOrderStatusRoute st id status).response.isOk = true ↔
        (status ∈ (["pending", "completed", "cancelled"] : List String) ∧
          (getOrder st id).isSome = true)) ∧
      (∀ o, getOrder st id = some o →
        status ∈ (["pending", "completed", "cancelled"] : List String) →
        (updateOrderStatusRoute st id status).response = Except.ok { o with status := status } ∧
        getOrder (updateOrderStatusRoute st id status).state id = some { o with status := status }) ∧
      ((updateOrderStatusRoute st id status).response.isOk = false →
        (updateOrderStatusRoute st id status).state = st) := by
  intro st id status
  by_cases hc : status ∈ (["pending", "completed", "cancelled"] : List String)
  · have hcb : (["pending", "completed", "cancelled"] : List String).contains status = true := by
      simpa [List.contains] using List.elem_iff.mpr hc
    cases hord : st.orders.find? (fun o => o.id == id) with
    | none =>
      have hus : updateOrderStatus st id status = (none, st) := by
        unfold updateOrderStatus
        rw [hord]
      have hroute : updateOrderStatusRoute st id status =
          { response := Except.error "Order not found", state := st, events := [] } := by
        unfold updateOrderStatusRoute
        rw [hcb, hus]
        rfl
      refine ⟨?_, ?_, ?_⟩
      · rw [hroute]
        simp [getOrder, hord, Except.isOk, Except.toBool]
      · intro o ho
        rw [getOrder, hord] at ho
        exact absurd ho (by simp)
      · intro _
        rw [hroute]
    | some o =>
      have hoid : o.id = id := by simpa using List.find?_some hord
      have hus : updateOrderStatus st id status =
          (some { o with status := status },
           { st with orders := mapSetOrder st.orders id { o with status := status } }) := by
        unfold updateOrderStatus
        rw [hord]
      have hroute : updateOrderStatusRoute st id status =
          { response := Except.ok { o with status := status },
            state := { st with orders := mapSetOrder st.orders id { o with status := status } },
            events := ["order:updated"] } := by
        unfold updateOrderStatusRoute
        rw [hcb, hus]
        rfl
      refine ⟨?_, ?_, ?_⟩
      · rw [hroute]
        simp [getOrder, hord, hc, Except.isOk, Except.toBool]
      · intro o' ho' _
        rw [getOrder, hord] at ho'
        cases ho'
        refine ⟨by rw [hroute], ?_⟩
        rw [hroute]
        show (mapSetOrder st.orders id { o with status := status }).find?
            (fun q => q.id == id) = some { o with status := status }
        exact find?_mapSet_self Order.id st.orders id { o with status := status } hoid
      · intro hfalse
        rw [hroute] at hfalse
        simp [Except.isOk, Except.toBool] at hfalse
  · have hcb : (["pending", "completed", "cancelled"] : List String).contains status = false := by
      rw [Bool.eq_false_iff]
      intro h
      exact hc (List.elem_iff.mp (by simpa [List.contains] using h))
    have hroute : updateOrderStatusRoute st id status =
        { response := Except.error "Invalid status", state := st, events := [] } := by
      unfold updateOrderStatusRoute
      rw [hcb]
      rfl
    refine ⟨?_, ?_, ?_⟩
    · rw [hroute]
      simp [hc, Except.isOk, Except.toBool]
    · intro o _ hmem
      exact absurd hmem hc
    · intro _
      rw [hroute]

/-- Witness for C2's amended theorem: a pending order accepts the
transition to `completed`. -/
theorem updateOrderStatusRoute_behavior_witness :
    (updateOrderStatusRoute
        { categories := [], products := [],
          orders := [{ completedOrder with status := "pending" }],
          siteSettings := { id := "default", description := "d", youtubeUrl := "", updatedAt := 0 } }
        "o1" "completed").response =
      Except.ok { completedOrder with status := "completed" } := by
  exact ((updateOrderStatusRoute_behavior
      { categories := [], products := [],
        orders := [{ completedOrder with status := "pending" }],
        siteSettings := { id := "default", description := "d", youtubeUrl := "", updatedAt := 0 } }
      "o1" "completed").2.1 { completedOrder with status := "pending" } rfl
      (by decide)).1

/-! ## C3 -/

/-- C3.  The order route fails with `notFound` when any requested
product id is absent; when all resolve, it fails with
`insufficientStock` carrying the name of the product of the first line
item whose quantity exceeds its stock; and on every failure the storage
state is exactly the pre-request state (no order persisted, no stock
changed). -/
theorem placeOrder_failure_modes :
    ∀ st r freshId now,
      ((∃ item ∈ r.products, getProduct st item.productId = none) →
        (placeOrder st r freshId now).response = Except.error OrderError.notFound) ∧
      ((∀ item ∈ r.products, (getProduct st item.productId).isSome = true) →
        ∀ item, r.products.find?
            (fun it =>
              match getProduct st it.productId with
              | none => true
              | some p => p.stock < it.quantity) = some item →
          ∃ p, getProduct st item.productId = some p ∧
            (placeOrder st r freshId now).response =
              Except.error (OrderError.insufficientStock p.name)) ∧
      (∀ e, (placeOrder st r freshId now).response = Except.error e →
        (placeOrder st r freshId now).state = st) := by
  intro st r freshId now
  refine ⟨?_, ?_, ?_⟩
  · rintro ⟨item, hitem, hnone⟩
    have hany : (fetchedProducts st r).any (fun p => p.isNone) = true :=
      List.any_eq_true.mpr ⟨none, List.mem_map.mpr ⟨item, hitem, hnone⟩, rfl⟩
    rw [placeOrder_notFound_route hany]
  · intro hall item hfindspec
    have hanyf := fetched_none_check st r hall
    have hbridge : ∀ it ∈ r.products, stockShort st r it =
        (fun it : InsertOrderItem =>
          match getProduct st it.productId with
          | none => true
          | some p => decide (p.stock < it.quantity)) it := by
      intro it hit
      unfold stockShort
      rw [fetchedList_find_eq st r hanyf it hit]
    have himpl : r.products.find? (stockShort st r) = some item := by
      rw [find?_congr_mem (stockShort st r) _ r.products hbridge]
      exact hfindspec
    have hitem : item ∈ r.products := List.mem_of_find?_eq_some himpl
    obtain ⟨p, hp⟩ := Option.isSome_iff_exists.mp (hall item hitem)
    have hname : shortName st r item = p.name := by
      unfold shortName
      rw [fetchedList_find_eq st r hanyf item hitem, hp]
      rfl
    have hroute : placeOrder st r freshId now =
        { response := Except.error (OrderError.insufficientStock (shortName st r item)),
          state := st, events := [] } := by
      unfold placeOrder
      rw [hanyf, himpl]
      rfl
    exact ⟨p, hp, by rw [hroute, hname]⟩
  · intro e herr
    cases hany : (fetchedProducts st r).any (fun p => p.isNone) with
    | true => rw [placeOrder_notFound_route hany]
    | false =>
      cases hfind : r.products.find? (stockShort st r) with
      | some item =>
        have hroute : placeOrder st r freshId now =
            { response := Except.error (OrderError.insufficientStock (shortName st r item)),
              state := st, events := [] } := by
          unfold placeOrder
          rw [hany, hfind]
          rfl
        rw [hroute]
      | none =>
        cases hco : createOrder st r (fetchedList st r) freshId now with
        | error e2 =>
          have hroute : placeOrder st r freshId now =
              { response := Except.error (OrderError.other e2), state := st, events := [] } := by
            unfold placeOrder
            rw [hany, hfind, hco]
            rfl
          rw [hroute]
        | ok pair =>
          obtain ⟨o, st2⟩ := pair
          have hroute : placeOrder st r freshId now =
              { response := Except.ok o, state := decrementLoop st2 r.products,
                events := ["order:created"] } := by
            unfold placeOrder
            rw [hany, hfind, hco]
            rfl
          rw [hroute] at herr
          cases herr

/-- Witness for C3: a one-item request over stock is rejected with the
product's name and leaves the store untouched. -/
theorem placeOrder_failure_modes_witness :
    ∃ p : Product, getProduct parrotStore "p1" = some p ∧
      (placeOrder parrotStore twoParrots "o1" 1).response =
        Except.error (OrderError.insufficientStock p.name) := by
  exact (placeOrder_failure_modes parrotStore twoParrots "o1" 1).2.1
    (by decide) { productId := "p1", quantity := 2 } (by decide)

/-! ## C4 -/

/-- C4.  A successfully created order totals to the sum of
`priceInINR × quantity` over its line items, every line item copies name
and price from the product resolved at creation time, there is one line
per requested item; and `updateProduct` (the operation behind later
price/name edits) never touches the order map, so previously created
orders — their line items and totals included — are left unchanged. -/
theorem placeOrder_snapshot_total :
    (∀ st r freshId now order,
      (placeOrder st r freshId now).response = Except.ok order →
        order.totalAmountINR =
          (order.products.map (fun l => l.priceInINR * l.quantity)).sum ∧
        order.products.length = r.products.length ∧
        ∀ l ∈ order.products, ∃ p, getProduct st l.productId = some p ∧
          l.name = p.name ∧ l.priceInINR = p.priceInINR) ∧
    (∀ st id u, (updateProduct st id u).2.orders = st.orders) := by
  constructor
  · intro st r freshId now order hok
    cases hany : (fetchedProducts st r).any (fun p => p.isNone) with
    | true =>
      rw [placeOrder_notFound_route hany] at hok
      cases hok
    | false =>
      cases hfind : r.products.find? (stockShort st r) with
      | some item =>
        have hroute : placeOrder st r freshId now =
            { response := Except.error (OrderError.insufficientStock (shortName st r item)),
              state := st, events := [] } := by
          unfold placeOrder
          rw [hany, hfind]
          rfl
        rw [hroute] at hok
        cases hok
      | none =>
        cases hco : createOrder st r (fetchedList st r) freshId now with
        | error e2 =>
          have hroute : placeOrder st r freshId now =
              { response := Except.error (OrderError.other e2), state := st, events := [] } := by
            unfold placeOrder
            rw [hany, hfind, hco]
            rfl
          rw [hroute] at hok
          cases hok
        | ok pair =>
          obtain ⟨o, st2⟩ := pair
          have hroute : placeOrder st r freshId now =
              { response := Except.ok o, state := decrementLoop st2 r.products,
                events := ["order:created"] } := by
            unfold placeOrder
            rw [hany, hfind, hco]
            rfl
          rw [hroute] at hok
          have ho : o = order := by
            cases hok
            rfl
          subst ho
          obtain ⟨hml, htot, -, -, -, -, -, -, -, -⟩ := createOrder_ok hco
          obtain ⟨hlen, hmem⟩ := mapLines_lines (fetchedList st r) r.products o.products hml
          refine ⟨htot, hlen, ?_⟩
          intro l hl
          obtain ⟨item, hitem, p, hpfind, hlp⟩ := hmem l hl
          have hg : getProduct st item.productId = some p := by
            rw [← fetchedList_find_eq st r hany item hitem]
            exact hpfind
          subst hlp
          exact ⟨p, hg, rfl, rfl⟩
  · intro st id u
    unfold updateProduct
    cases hfind : st.products.find? (fun p => p.id == id) with
    | none => rfl
    | some p => rfl

/-- Witness for C4: the snapshot theorem applied to a concrete order. -/
theorem placeOrder_snapshot_total_witness :
    parrotSnap.totalAmountINR =
      (parrotSnap.products.map (fun l => l.priceInINR * l.quantity)).sum :=
  (placeOrder_snapshot_total.1 parrotStore oneParrot "o9" 3 parrotSnap rfl).1

/-! ## C10 -/

/-- C10.  The order route never consults `available`: whenever every
line item resolves to a product whose stock covers that item's quantity
(the only inventory gate), the order succeeds — the hypotheses mention
stock alone — and each product's stock is decremented by the total
requested quantity. -/
theorem placeOrder_ignores_available :
    ∀ st r freshId now,
      (∀ item ∈ r.products, 0 < item.quantity) →
      (∀ item ∈ r.products, ∃ p, getProduct st item.productId = some p ∧
        item.quantity ≤ p.stock) →
      (placeOrder st r freshId now).response.isOk = true ∧
      ∀ pid p, getProduct st pid = some p →
        getProduct (placeOrder st r freshId now).state pid =
          some { p with stock := p.stock - qtySum r.products pid } := by
  intro st r freshId now hpos hstock
  have hall : ∀ item ∈ r.products, (getProduct st item.productId).isSome = true := by
    intro item hitem
    obtain ⟨p, hp, -⟩ := hstock item hitem
    rw [hp]
    rfl
  have hanyf := fetched_none_check st r hall
  have hnoviol : r.products.find? (stockShort st r) = none := by
    apply List.find?_eq_none.mpr
    intro it hit
    obtain ⟨p, hp, hle⟩ := hstock it hit
    unfold stockShort
    rw [fetchedList_find_eq st r hanyf it hit, hp]
    simp only [decide_eq_true_eq, not_lt]
    exact hle
  obtain ⟨ls, hml⟩ := mapLines_isOk (fetchedList st r) r.products (by
    intro item hitem
    rw [fetchedList_find_eq st r hanyf item hitem]
    exact hall item hitem)
  cases hco : createOrder st r (fetchedList st r) freshId now with
  | error e2 =>
    exfalso
    unfold createOrder at hco
    rw [hml] at hco
    cases hco
  | ok pair =>
    obtain ⟨o, st2⟩ := pair
    have hprod : st2.products = st.products := (createOrder_ok hco).2.2.2.2.2.2.1
    have hroute : placeOrder st r freshId now =
        { response := Except.ok o, state := decrementLoop st2 r.products,
          events := ["order:created"] } := by
      unfold placeOrder
      rw [hanyf, hnoviol, hco]
      rfl
    constructor
    · rw [hroute]
      rfl
    · intro pid p hp
      rw [hroute]
      apply decrementLoop_stock
      exact (getProduct_congr hprod pid).trans hp

/-- Witness for C10: ordering an `available = false` product succeeds. -/
theorem placeOrder_ignores_available_witness :
    hiddenToy.available = false ∧
    (placeOrder hiddenStore hiddenOrder "o1" 7).response.isOk = true := by
  refine ⟨rfl, ?_⟩
  have hstock : ∀ item ∈ hiddenOrder.products, ∃ p,
      getProduct hiddenStore item.productId = some p ∧ item.quantity ≤ p.stock := by
    intro item hitem
    have hi : item = { productId := "p1", quantity := 3 } := by
      simpa [hiddenOrder] using hitem
    subst hi
    exact ⟨hiddenToy, rfl, by decide⟩
  exact (placeOrder_ignores_available hiddenStore hiddenOrder "o1" 7 (by decide) hstock).1

/-! ## C1 -/

/-- C1 fails on the code: a request repeating the same product id passes
the per-item stock validation (each quantity is positive and within the
pre-request stock), the order is accepted, and the decrement loop drives
the stock to `-1` — the `stock ≥ 0` invariant the spec demands is
violated with no rejection before mutation. -/
theorem placeOrder_duplicate_items_negative_stock :
    hamster.stock = 1 ∧
    (∀ item ∈ dupRequest.products, 0 < item.quantity ∧ item.quantity ≤ hamster.stock) ∧
    (placeOrder dupStore dupRequest "o1" 1).response.isOk = true ∧
    (getProduct (placeOrder dupStore dupRequest "o1" 1).state "p1").map Product.stock =
      some (-1) := by
  exact ⟨rfl, by decide, rfl, rfl⟩

/-! ## C6 -/

/-- C6.  With `P` at stock 2: the quantity-2 order succeeds, `P`'s stock
becomes 0 (observable through the store), the `order:created` event is
broadcast, and a subsequent quantity-1 order fails with
`InsufficientStock` naming `P`. -/
theorem order_scenario_stock_two :
    (placeOrder scenarioStore orderTwo "o1" 1).response.isOk = true ∧
    (getProduct (placeOrder scenarioStore orderTwo "o1" 1).state "p1").map Product.stock =
      some 0 ∧
    (placeOrder scenarioStore orderTwo "o1" 1).events = ["order:created"] ∧
    (placeOrder (placeOrder scenarioStore orderTwo "o1" 1).state orderOne "o2" 2).response =
      Except.error (OrderError.insufficientStock "P") := by
  exact ⟨rfl, rfl, rfl, rfl⟩

end PetShop
